import Mathlib

/-!
Verification of the per-guild playback-queue core of a music chat-bot
(`src/main.rs`, `src/commands.rs`).

The Rust code is shallowly embedded: `VecDeque<Song>` becomes `List Song`
(`pop_front` = head/tail, `push_back` = append), `Duration` becomes its
second count as a `Nat`, `TrackHandle` becomes an abstract `Nat` identifier,
and the I/O a command performs (chat messages, console prints, handing a
source to the voice transport) is recorded as an explicit list of effects.
Lock-protected concurrent code (`queue_or_create`, the guard nesting of the
`play` command and the end-of-track callback) is embedded as small explicit
interleaving systems whose atomic steps are the code's critical sections.
-/

/-- `SongSource` from main.rs: tagged union of audio origins
(one variant, a YouTube video id plus canonical URL). -/
inductive SongSource
  | youtube (id : String) (url : String)
deriving DecidableEq, Repr

/-- `Song` from main.rs: display metadata, duration (seconds), source, and
the optional live playback handle (`TrackHandle` modelled as a `Nat` id). -/
structure Song where
  title : String
  artist : String
  author : String
  duration : Nat
  source : SongSource
  handle : Option Nat
deriving DecidableEq, Repr

/-- `YouTubeVideo` from main.rs. -/
structure YouTubeVideo where
  name : String
  channel : String
  duration : Nat
  id : String
deriving DecidableEq, Repr

/-- `YouTubeVideo::url` from main.rs. -/
def YouTubeVideo.url (v : YouTubeVideo) : String :=
  "https://youtube.com/watch?v=" ++ v.id

/-- `YouTubeVideo::as_song` from main.rs: builds a `Song` with
`handle: None`, decoding the HTML apostrophe entity in the title. -/
def YouTubeVideo.as_song (v : YouTubeVideo) (author : String) : Song :=
  { title := (v.name.replace "&#39;" "\x27")
    artist := v.channel
    author := author
    duration := v.duration
    source := SongSource.youtube v.id v.url
    handle := none }

/-- `ServerQueue` from main.rs: the current track and the pending FIFO. -/
structure ServerQueue where
  now_playing : Option Song
  queue : List Song
deriving DecidableEq, Repr

/-- `ServerQueue::shift_queue` from main.rs:
`self.now_playing = self.queue.pop_front();`. -/
def ServerQueue.shift_queue (q : ServerQueue) : ServerQueue :=
  { now_playing := q.queue.head?, queue := q.queue.tail }

/-- `ServerQueue::skip` from main.rs (defined, not called by any command). -/
def ServerQueue.skip (q : ServerQueue) : ServerQueue :=
  { q with now_playing := none }

/-- `ServerQueue::stop` from main.rs (defined, not called by any command). -/
def ServerQueue.stop (_q : ServerQueue) : ServerQueue :=
  { now_playing := none, queue := [] }

/-- Rust's `format!` padding specifier `{:02}` on an unsigned integer:
zero-pad to width two, wider numbers printed in full. -/
def pad2 (n : Nat) : String :=
  if n < 10 then "0" ++ toString n else toString n

/-- `format_duration` from commands.rs: seconds, minutes and hours by
integer division; `HH:MM:SS` (each `{:02}`) when the hour count is nonzero,
else `MM:SS` (each `{:02}`). -/
def format_duration (secs : Nat) : String :=
  let mins := secs / 60
  let hours := mins / 60
  if hours ≠ 0 then
    pad2 hours ++ ":" ++ pad2 (mins % 60) ++ ":" ++ pad2 (secs % 60)
  else
    pad2 (mins % 60) ++ ":" ++ pad2 (secs % 60)

/-- Observable I/O performed by the playback code: console prints,
user-visible chat messages, and handing a resolved source to the voice
transport (`call.play_source`, tagged by the handle it yields). -/
inductive Effect
  | consoleLog (text : String)
  | userMessage (text : String)
  | startPlayback (handle : Nat)
deriving DecidableEq, Repr

/-- The user-visible chat messages among a list of effects. -/
def userMessages (effs : List Effect) : List String :=
  effs.filterMap fun e =>
    match e with
    | Effect.userMessage t => some t
    | _ => none

/-- How many times a source was handed to the voice transport. -/
def startCount (effs : List Effect) : Nat :=
  (effs.filter fun e =>
    match e with
    | Effect.startPlayback _ => true
    | _ => false).length

/-- `play_song` from commands.rs. `resolveOk` is the outcome of
`song.source.as_input()`: on error it prints, sends one
"Error sourcing ffmpeg" chat message and returns `true` (early-return
signal) leaving the song untouched; on success it starts the source on the
call, stores the new `TrackHandle` into `song.handle`, and announces the
song, returning `false`. -/
def play_song (resolveOk : Bool) (newHandle : Nat) (song : Song) :
    Song × List Effect × Bool :=
  if resolveOk then
    ({ song with handle := some newHandle },
     [Effect.startPlayback newHandle,
      Effect.userMessage ("Playing now: " ++ song.title)],
     false)
  else
    (song,
     [Effect.consoleLog "Err starting source",
      Effect.userMessage "Error sourcing ffmpeg"],
     true)

/-- Outcome of the `play` command's enqueue-or-start decision. -/
inductive PlayOutcome
  | started
  | enqueued (position : Nat)
  | resolutionError
deriving DecidableEq, Repr

/-- The queue-relevant body of the `play` command from commands.rs, entered
with the guild's queue guard held and a resolved `song` (`handle = None`).
If `now_playing` is occupied, it reports "Position in queue" as
`queue.len() + 1` and then `push_back`s the song. Otherwise it runs
`play_song`; on failure (`true`) it returns at once, leaving the queue
untouched — `now_playing = Some(song)` is only assigned after a successful
start. -/
def play (resolveOk : Bool) (newHandle : Nat) (q : ServerQueue) (song : Song) :
    ServerQueue × List Effect × PlayOutcome :=
  if q.now_playing.isSome then
    ({ q with queue := q.queue ++ [song] },
     [Effect.userMessage ("Added to queue: " ++ song.title)],
     PlayOutcome.enqueued (q.queue.length + 1))
  else
    match play_song resolveOk newHandle song with
    | (song2, effs, failed) =>
      if failed then (q, effs, PlayOutcome.resolutionError)
      else ({ q with now_playing := some song2 }, effs, PlayOutcome.started)

/-- `SongEndNotifier::act` from commands.rs. `upgradeOk` is whether the
`Weak` call-handle reference upgrades; the whole body sits inside that
`if let`. On upgrade it locks the queue, calls `shift_queue`, and if a new
`now_playing` exists runs `play_song` on it in place (the returned early
flag is ignored; on failure the shifted song simply stays `now_playing`
with its handle unchanged). -/
def songEndAct (upgradeOk : Bool) (resolveOk : Bool) (newHandle : Nat)
    (q : ServerQueue) : ServerQueue × List Effect :=
  if upgradeOk then
    let q2 := q.shift_queue
    match q2.now_playing with
    | some s =>
      match play_song resolveOk newHandle s with
      | (song2, effs, _failed) =>
        ({ q2 with now_playing := some song2 }, effs)
    | none => (q2, [])
  else (q, [])

/-!
`PerServerQueue::queue_or_create` from main.rs, for one fixed guild id.
The map entry is `Option Nat` where the `Nat` identifies a distinct
`Arc<Mutex<ServerQueue>>` allocation; `nextId` numbers fresh allocations.
A caller is a coroutine with one suspension point: between dropping the
read lock and acquiring the write lock. Each phase transition below is one
critical section of the source, so interleavings of phase steps are exactly
the interleavings the `RwLock` admits.
-/

/-- Shared registry state for one guild id: the map entry (an allocation
id, if present) and the counter producing fresh allocation ids. -/
structure RegState where
  entry : Option Nat
  nextId : Nat
deriving DecidableEq, Repr

/-- A caller's position inside `queue_or_create`: before the read-lock
check; after the check missed (read lock dropped, write lock not yet
acquired); or returned with the allocation id it obtained. -/
inductive QOCPhase
  | ready
  | afterReadMiss
  | done (result : Nat)
deriving DecidableEq, Repr

/-- One atomic phase of `queue_or_create` as written in main.rs: under the
read lock, a present entry is cloned and returned; on a miss the read lock
is dropped. Under the write lock the caller inserts a fresh queue
unconditionally — the source has no re-check — overwriting any entry that
appeared in between, and returns `map.get(guild_id).unwrap()`, the
just-inserted allocation. -/
def qocStep (st : RegState) : QOCPhase → RegState × QOCPhase
  | QOCPhase.ready =>
    match st.entry with
    | some q => (st, QOCPhase.done q)
    | none => (st, QOCPhase.afterReadMiss)
  | QOCPhase.afterReadMiss =>
    ({ entry := some st.nextId, nextId := st.nextId + 1 },
     QOCPhase.done st.nextId)
  | QOCPhase.done r => (st, QOCPhase.done r)

/-- Modelled from the spec: the write-lock phase of `getOrCreate` as §4.1
words it — after acquiring the exclusive lock, re-check for existence and
insert only if still absent, returning the entry found or inserted. The
read phase is the same optimistic check as the code's. -/
def qocStepSpecRecheck (st : RegState) : QOCPhase → RegState × QOCPhase
  | QOCPhase.ready =>
    match st.entry with
    | some q => (st, QOCPhase.done q)
    | none => (st, QOCPhase.afterReadMiss)
  | QOCPhase.afterReadMiss =>
    match st.entry with
    | some q => (st, QOCPhase.done q)
    | none =>
      ({ entry := some st.nextId, nextId := st.nextId + 1 },
       QOCPhase.done st.nextId)
  | QOCPhase.done r => (st, QOCPhase.done r)

/-- Two concurrent callers of `queue_or_create` for the same guild id. -/
structure QOCSystem where
  reg : RegState
  callerA : QOCPhase
  callerB : QOCPhase
deriving DecidableEq, Repr

/-- Scheduler step: run one atomic phase of the chosen caller
(`true` = caller B). -/
def qocSysStep (step : RegState → QOCPhase → RegState × QOCPhase)
    (s : QOCSystem) (chooseB : Bool) : QOCSystem :=
  if chooseB then
    match step s.reg s.callerB with
    | (reg2, p2) => { s with reg := reg2, callerB := p2 }
  else
    match step s.reg s.callerA with
    | (reg2, p2) => { s with reg := reg2, callerA := p2 }

/-- Run a schedule (list of scheduler choices) from a system state. -/
def qocRun (step : RegState → QOCPhase → RegState × QOCPhase)
    (s : QOCSystem) : List Bool → QOCSystem
  | [] => s
  | c :: cs => qocRun step (qocSysStep step s c) cs

/-- Both callers start at the read-lock check over an empty registry. -/
def qocInit : QOCSystem :=
  { reg := { entry := none, nextId := 0 }
    callerA := QOCPhase.ready
    callerB := QOCPhase.ready }

/-- The racing schedule: both callers pass the read check before either
takes the write lock, then each inserts. -/
def qocRaceSchedule : List Bool := [false, true, false, true]

/-!
Guard nesting of the two call sites that take both the voice-call handle
guard and the guild queue guard (claim C2). The acquisition orders are read
off the source:
* `play` locks the call handle at commands.rs:158 and, still holding it,
  locks the guild queue at commands.rs:171;
* `SongEndNotifier::act` locks the guild queue at commands.rs:275 and,
  still holding it, calls `play_song` with `call = None`, which locks the
  call handle at commands.rs:236.
The deadlock system below runs the two acquisition sequences concurrently.
-/

/-- The two guards shared between commands and the completion callback. -/
inductive LockId
  | callHandle
  | guildQueue
deriving DecidableEq, Repr

/-- Guard acquisition order of the `play` command (commands.rs:158, 171). -/
def playGuardOrder : List LockId := [LockId.callHandle, LockId.guildQueue]

/-- Guard acquisition order of `SongEndNotifier::act` (commands.rs:275,
then commands.rs:236 inside `play_song` called with `call = None`). -/
def songEndGuardOrder : List LockId := [LockId.guildQueue, LockId.callHandle]

/-- Guard acquisition order of the `skip` command (commands.rs:345, 351). -/
def skipGuardOrder : List LockId := [LockId.callHandle, LockId.guildQueue]

/-- A `play` task and a callback task racing for the two guards: who holds
each guard (`false` = the play task, `true` = the callback task) and how
many guards of its sequence each task has acquired. -/
structure TwoTaskState where
  callHolder : Option Bool
  queueHolder : Option Bool
  pcPlay : Nat
  pcEnd : Nat
deriving DecidableEq, Repr

/-- Initial state: no guard held, neither task has acquired anything. -/
def twoTaskInit : TwoTaskState :=
  { callHolder := none, queueHolder := none, pcPlay := 0, pcEnd := 0 }

/-- The chosen task tries to acquire the next guard of its sequence:
`none` when it is finished or the guard is held (blocked), otherwise the
state after the acquisition. -/
def tryAcquire (s : TwoTaskState) (taskIsEnd : Bool) : Option TwoTaskState :=
  let prog := if taskIsEnd then songEndGuardOrder else playGuardOrder
  let pc := if taskIsEnd then s.pcEnd else s.pcPlay
  match prog.get? pc with
  | none => none
  | some l =>
    match (match l with
           | LockId.callHandle => s.callHolder
           | LockId.guildQueue => s.queueHolder) with
    | some _ => none
    | none =>
      let s2 := match l with
        | LockId.callHandle => { s with callHolder := some taskIsEnd }
        | LockId.guildQueue => { s with queueHolder := some taskIsEnd }
      some (if taskIsEnd then { s2 with pcEnd := pc + 1 }
            else { s2 with pcPlay := pc + 1 })

/-- Run a sequence of `play` commands (each with a successfully resolved
source) against a queue, collecting the outcome of each call. -/
def playAll (q : ServerQueue) : List Song → ServerQueue × List PlayOutcome
  | [] => (q, [])
  | t :: ts =>
    match play true 0 q t with
    | (q2, _effs, out) =>
      match playAll q2 ts with
      | (qf, outs) => (qf, out :: outs)

/-- Apply `shift_queue` `n` times, recording `now_playing` after each
shift. -/
def runShifts (q : ServerQueue) : Nat → ServerQueue × List (Option Song)
  | 0 => (q, [])
  | n + 1 =>
    let q2 := q.shift_queue
    match runShifts q2 n with
    | (qf, obs) => (qf, q2.now_playing :: obs)

/-- The song with its playback handle forgotten — the identity under which
tracks are compared across the start transition, which attaches a handle. -/
def Song.stripHandle (s : Song) : Song :=
  { s with handle := none }

/-- The `ServerQueue` states reachable through the program's actual call
sites: the empty queue installed by `queue_or_create`; the `play` command
run on a resolved song (which always carries `handle = None`, being built
by `as_song`); and the end-of-track callback `SongEndNotifier::act`. The
resolution outcome, upgrade outcome and fresh handle id are arbitrary. -/
inductive Reachable : ServerQueue → Prop
  | init : Reachable { now_playing := none, queue := [] }
  | playStep (q : ServerQueue) (song : Song) (resolveOk : Bool) (h : Nat) :
      Reachable q → song.handle = none →
      Reachable (play resolveOk h q song).1
  | songEnd (q : ServerQueue) (upgradeOk resolveOk : Bool) (h : Nat) :
      Reachable q → Reachable (songEndAct upgradeOk resolveOk h q).1

/-- A sample resolved song (as `as_song` would produce: `handle = None`). -/
def songA : Song :=
  { title := "a", artist := "artA", author := "userA", duration := 100
    source := SongSource.youtube "aaaaaaaaaaa" "https://youtube.com/watch?v=aaaaaaaaaaa"
    handle := none }

/-- A second sample resolved song (`handle = None`). -/
def songB : Song :=
  { title := "b", artist := "artB", author := "userB", duration := 200
    source := SongSource.youtube "bbbbbbbbbbb" "https://youtube.com/watch?v=bbbbbbbbbbb"
    handle := none }

/-- The state reached by: `play songA` (resolution succeeds, handle 5),
`play songB` while A is current (B enqueued), track A ends and the
callback shifts B to `now_playing` but B's source resolution fails. -/
def failedAdvanceState : ServerQueue :=
  (songEndAct true false 7 (play true 6 (play true 5
    { now_playing := none, queue := [] } songA).1 songB).1).1

/-- The `skip` command (commands.rs:352-353) calls
`now_playing.handle.as_ref().unwrap()`: it aborts the process exactly when
a current song has no handle. -/
def skipUnwrapsNoHandle (q : ServerQueue) : Bool :=
  match q.now_playing with
  | some s => s.handle.isNone
  | none => false

/-- C1: `queue_or_create` omits the re-check after acquiring the write
lock and inserts unconditionally. Under the interleaving in which both
callers pass the read-lock check before either takes the write lock,
caller A returns allocation 0 while caller B's later unconditional insert
replaces the map entry with a fresh allocation 1 — the two callers hold
two distinct `ServerQueue` instances for the same guild id and A's is no
longer in the map. Under the spec's re-check-then-insert step
(`qocStepSpecRecheck`) the same schedule hands both callers the same
single allocation. -/
theorem c1_queue_or_create_race :
    qocRun qocStep qocInit qocRaceSchedule =
      { reg := { entry := some 1, nextId := 2 }
        callerA := QOCPhase.done 0
        callerB := QOCPhase.done 1 } ∧
    (qocRun qocStep qocInit qocRaceSchedule).callerA ≠
      (qocRun qocStep qocInit qocRaceSchedule).callerB ∧
    qocRun qocStepSpecRecheck qocInit qocRaceSchedule =
      { reg := { entry := some 0, nextId := 1 }
        callerA := QOCPhase.done 0
        callerB := QOCPhase.done 0 } := by
  refine ⟨rfl, by decide, rfl⟩

/-- C2: the two call sites that take both guards nest them in opposite
orders — `play` takes the call-handle guard then the guild-queue guard
(commands.rs:158, 171) while the completion callback takes the guild-queue
guard then the call-handle guard (commands.rs:275, then 236 inside
`play_song`). Running the two acquisition sequences concurrently reaches a
state where each task holds one guard and is blocked on the other with its
sequence unfinished: a deadlock. -/
theorem c2_guard_order_deadlock :
    playGuardOrder ≠ songEndGuardOrder ∧
    songEndGuardOrder = playGuardOrder.reverse ∧
    tryAcquire twoTaskInit false =
      some { callHolder := some false, queueHolder := none, pcPlay := 1, pcEnd := 0 } ∧
    tryAcquire { callHolder := some false, queueHolder := none, pcPlay := 1, pcEnd := 0 } true =
      some { callHolder := some false, queueHolder := some true, pcPlay := 1, pcEnd := 1 } ∧
    tryAcquire { callHolder := some false, queueHolder := some true, pcPlay := 1, pcEnd := 1 } false = none ∧
    tryAcquire { callHolder := some false, queueHolder := some true, pcPlay := 1, pcEnd := 1 } true = none ∧
    1 < playGuardOrder.length ∧ 1 < songEndGuardOrder.length := by
  refine ⟨by decide, rfl, rfl, rfl, rfl, rfl, by decide, by decide⟩

/-- C4 counterexample: `format_duration` zero-pads the minute field with
the `{:02}` specifier even under one hour, so 45 seconds renders as
"00:45", not "0:45" as claimed (and 125 as "02:05", not "2:05"). -/
theorem c4_counterexample :
    format_duration 45 = "00:45" ∧ ¬ (format_duration 45 = "0:45") ∧
    format_duration 125 = "02:05" ∧ ¬ (format_duration 125 = "2:05") := by
  refine ⟨rfl, by decide, rfl, by decide⟩

/-- C4 amended: `format_duration` renders a duration of at least one hour
as zero-padded H:MM:SS and a duration under one hour as zero-padded MM:SS
(the minute field is always two digits); 45 seconds renders as "00:45",
125 seconds as "02:05", and 3725 seconds as "01:02:05". -/
theorem c4_format_duration_amended :
    (∀ s : Nat, s < 3600 →
      format_duration s = pad2 (s / 60) ++ ":" ++ pad2 (s % 60)) ∧
    (∀ s : Nat, 3600 ≤ s →
      format_duration s =
        pad2 (s / 3600) ++ ":" ++ pad2 (s / 60 % 60) ++ ":" ++ pad2 (s % 60)) ∧
    format_duration 45 = "00:45" ∧
    format_duration 125 = "02:05" ∧
    format_duration 3725 = "01:02:05" := by
  refine ⟨?_, ?_, rfl, rfl, rfl⟩
  · intro s hs
    have h1 : s / 60 < 60 := Nat.div_lt_of_lt_mul (by omega)
    have h2 : s / 60 / 60 = 0 := Nat.div_eq_of_lt h1
    simp [format_duration, h2, Nat.mod_eq_of_lt h1]
  · intro s hs
    have h2 : s / 60 / 60 = s / 3600 := by
      rw [Nat.div_div_eq_div_mul]
    have h3 : s / 3600 ≠ 0 := by
      have h4 : 3600 / 3600 ≤ s / 3600 := Nat.div_le_div_right hs
      simp at h4
      omega
    simp [format_duration, h2, h3]

/-- C6: `shift_queue` pops the first pending track into `now_playing`, or
sets it to `none` when the pending list is empty; from current = A,
pending = [B, C] it yields current = B, pending = [C]; from current = C,
pending = [] it yields the idle state; and from the idle state it is the
identity. -/
theorem c6_shift_queue_transitions (a b c : Song) :
    ServerQueue.shift_queue { now_playing := some a, queue := [b, c] } =
      { now_playing := some b, queue := [c] } ∧
    ServerQueue.shift_queue { now_playing := some c, queue := [] } =
      { now_playing := none, queue := [] } ∧
    ServerQueue.shift_queue { now_playing := none, queue := [] } =
      { now_playing := none, queue := [] } :=
  ⟨rfl, rfl, rfl⟩

/-- C8: when the weak call-handle reference fails to upgrade, the
end-of-track callback leaves the queue untouched and performs no effect at
all — no playback attempt, no message, no error. -/
theorem c8_callback_noop_on_dead_call (resolveOk : Bool) (h : Nat)
    (q : ServerQueue) :
    songEndAct false resolveOk h q = (q, []) := rfl

/-- C10: the invariant fails. After `play songA` (started, handle 5),
`play songB` (enqueued), and the completion callback shifting B to
`now_playing` with B's source resolution failing, the reachable state has
`now_playing = some songB` with `songB.handle = none`, and the `skip`
command's `unwrap` of the handle hits `None` (a panic). -/
theorem c10_skip_unwrap_reachable_no_handle :
    Reachable failedAdvanceState ∧
    failedAdvanceState.now_playing = some songB ∧
    songB.handle = none ∧
    skipUnwrapsNoHandle failedAdvanceState = true := by
  refine ⟨?_, rfl, rfl, rfl⟩
  exact Reachable.songEnd _ true false 7
    (Reachable.playStep _ songB true 6
      (Reachable.playStep _ songA true 5 Reachable.init rfl) rfl)

/-- C3 counterexample: when resolution fails for a track selected to start
immediately on an idle queue, the `play` command returns early without
assigning `now_playing`, so the queue does NOT keep that track as current
— it stays idle, contradicting the claim. -/
theorem c3_counterexample :
    (play false 0 { now_playing := none, queue := [] } songA).1.now_playing
      = none ∧
    ¬ ((play false 0 { now_playing := none, queue := [] } songA).1.now_playing
      = some songA) := by
  refine ⟨rfl, by decide⟩

/-- C3 amended: when audio-source resolution fails for a track selected to
start immediately on an idle queue, the track is dropped — the queue is
left exactly as it was (still idle, the track not made current), exactly
one user-visible error message ("Error sourcing ffmpeg") is produced, and
no playback start is attempted for that track without explicit
re-invocation. -/
theorem c3_resolution_failure_drops_track (q : ServerQueue) (song : Song)
    (h : Nat) (hidle : q.now_playing = none) :
    (play false h q song).1 = q ∧
    (play false h q song).2.2 = PlayOutcome.resolutionError ∧
    userMessages (play false h q song).2.1 = ["Error sourcing ffmpeg"] ∧
    startCount (play false h q song).2.1 = 0 := by
  have hb : q.now_playing.isSome = false := by rw [hidle]; rfl
  refine ⟨?_, ?_, ?_, ?_⟩ <;>
    simp [play, play_song, hb, userMessages, startCount]

/-- C3 witness: the amended theorem applied to the idle queue and a
concrete song. -/
theorem c3_resolution_failure_drops_track_witness :
    ({ now_playing := none, queue := [] } : ServerQueue).now_playing
      = none ∧
    (play false 0 { now_playing := none, queue := [] } songA).1 =
      { now_playing := none, queue := [] } :=
  ⟨rfl,
   (c3_resolution_failure_drops_track
      { now_playing := none, queue := [] } songA 0 rfl).1⟩

/-- C4 witness: the amended theorem's under-one-hour clause at 125
seconds. -/
theorem c4_format_duration_amended_witness :
    (125 : Nat) < 3600 ∧
    format_duration 125 = pad2 (125 / 60) ++ ":" ++ pad2 (125 % 60) :=
  ⟨by omega, c4_format_duration_amended.1 125 (by omega)⟩

/-- While `now_playing` is occupied, a run of `play` calls only appends:
the final queue is the old queue extended with all the songs in order, and
the outcomes are `enqueued` at consecutive 1-based positions starting
right after the old pending length. -/
theorem playAll_busy (ts : List Song) : ∀ q : ServerQueue,
    q.now_playing.isSome = true →
    (playAll q ts).1 = { q with queue := q.queue ++ ts } ∧
    (playAll q ts).2 =
      (List.range' (q.queue.length + 1) ts.length).map PlayOutcome.enqueued := by
  induction ts with
  | nil => intro q hq; simp [playAll]
  | cons t ts ih =>
    intro q hq
    have hplay : play true 0 q t =
        ({ q with queue := q.queue ++ [t] },
         [Effect.userMessage ("Added to queue: " ++ t.title)],
         PlayOutcome.enqueued (q.queue.length + 1)) := by
      simp [play, hq]
    have hq2 : ({ q with queue := q.queue ++ [t] } : ServerQueue).now_playing.isSome = true := hq
    obtain ⟨ih1, ih2⟩ := ih { q with queue := q.queue ++ [t] } hq2
    constructor
    · simp only [playAll, hplay, ih1]
      simp
    · simp only [playAll, hplay, ih2]
      simp [List.range'_succ]

/-- C5: against an initially idle queue, the first `play` makes the track
current (`started`); every later call appends to the back of pending and
reports the 1-based position it now occupies (`enqueued 1, 2, …`, which is
exactly the pending length after each append), so reported positions are
strictly increasing 1-based FIFO ranks. -/
theorem c5_enqueue_positions :
    (∀ (t : Song) (ts : List Song),
      (playAll { now_playing := none, queue := [] } (t :: ts)).2 =
        PlayOutcome.started ::
          (List.range' 1 ts.length).map PlayOutcome.enqueued ∧
      (playAll { now_playing := none, queue := [] } (t :: ts)).1.queue.length
        = ts.length) ∧
    (∀ (q : ServerQueue) (s : Song) (r : Bool) (h : Nat),
      q.now_playing.isSome = true →
      (play r h q s).1.queue = q.queue ++ [s] ∧
      (play r h q s).2.2 =
        PlayOutcome.enqueued (play r h q s).1.queue.length) := by
  constructor
  · intro t ts
    have hfirst : play true 0 { now_playing := none, queue := [] } t =
        ({ now_playing := some { t with handle := some 0 }, queue := [] },
         [Effect.startPlayback 0,
          Effect.userMessage ("Playing now: " ++ t.title)],
         PlayOutcome.started) := by
      simp [play, play_song]
    have hq2 : ({ now_playing := some { t with handle := some 0 }, queue := [] } : ServerQueue).now_playing.isSome = true := rfl
    obtain ⟨h1, h2⟩ := playAll_busy ts _ hq2
    constructor
    · simp only [playAll, hfirst, h2]
      simp
    · simp only [playAll, hfirst, h1]
      simp
  · intro q s r h hq
    constructor
    · simp [play, hq]
    · simp [play, hq]

/-- C5 witness: the append-and-position clause applied to a concrete busy
queue. -/
theorem c5_enqueue_positions_witness :
    ({ now_playing := some songA, queue := [] } : ServerQueue).now_playing.isSome = true ∧
    (play true 0 { now_playing := some songA, queue := [] } songB).2.2 =
      PlayOutcome.enqueued
        (play true 0 { now_playing := some songA, queue := [] } songB).1.queue.length :=
  ⟨rfl, (c5_enqueue_positions.2 { now_playing := some songA, queue := [] }
          songB true 0 rfl).2⟩

/-- Shifting the idle queue any number of times leaves it idle and
observes `none` each time. -/
theorem runShifts_idle (k : Nat) :
    runShifts { now_playing := none, queue := [] } k =
      ({ now_playing := none, queue := [] }, List.replicate k none) := by
  induction k with
  | zero => rfl
  | succ k ih =>
    simp only [runShifts, ServerQueue.shift_queue]
    simp [ih, List.replicate_succ]

/-- Draining: from a state with a current track and pending list `l`,
`l.length + 1 + k` shifts reach the idle state, observing exactly the
pending tracks in order followed by `k + 1` empty observations. -/
theorem runShifts_drain (l : List Song) : ∀ (c : Song) (k : Nat),
    runShifts { now_playing := some c, queue := l } (l.length + 1 + k) =
      ({ now_playing := none, queue := [] },
       l.map some ++ List.replicate (k + 1) none) := by
  induction l with
  | nil =>
    intro c k
    have hcount : ([] : List Song).length + 1 + k = k + 1 := by
      simp only [List.length_nil]; omega
    rw [hcount]
    simp only [runShifts, ServerQueue.shift_queue]
    simp [runShifts_idle, List.replicate_succ]
  | cons b bs ih =>
    intro c k
    have hcount : (b :: bs).length + 1 + k = (bs.length + 1 + k) + 1 := by
      simp; omega
    rw [hcount]
    simp only [runShifts, ServerQueue.shift_queue]
    simp [ih b k]

/-- C7: enqueueing `N` tracks (via `play`, first started, rest appended)
onto an initially idle queue and then applying `shift_queue` `N + 1` times
drains the queue back to idle, and the tracks observed as current — the
initial current plus the current after each shift, playback handles
disregarded — are exactly the `N` submitted tracks in submission order,
none lost, none duplicated. -/
theorem c7_drain_round_trip (ts : List Song) :
    (((playAll { now_playing := none, queue := [] } ts).1.now_playing ::
        (runShifts (playAll { now_playing := none, queue := [] } ts).1
          (ts.length + 1)).2).filterMap id).map Song.stripHandle =
      ts.map Song.stripHandle ∧
    (runShifts (playAll { now_playing := none, queue := [] } ts).1
        (ts.length + 1)).1 = { now_playing := none, queue := [] } := by
  cases ts with
  | nil =>
    constructor
    · simp [playAll, runShifts, ServerQueue.shift_queue]
    · simp [playAll, runShifts, ServerQueue.shift_queue]
  | cons t rest =>
    have hfirst : play true 0 { now_playing := none, queue := [] } t =
        ({ now_playing := some { t with handle := some 0 }, queue := [] },
         [Effect.startPlayback 0,
          Effect.userMessage ("Playing now: " ++ t.title)],
         PlayOutcome.started) := by
      simp [play, play_song]
    have hq2 : ({ now_playing := some { t with handle := some 0 }, queue := [] } : ServerQueue).now_playing.isSome = true := rfl
    obtain ⟨h1, _h2⟩ := playAll_busy rest _ hq2
    have hstate : (playAll { now_playing := none, queue := [] } (t :: rest)).1 =
        { now_playing := some { t with handle := some 0 }, queue := rest } := by
      simp only [playAll, hfirst, h1]
      simp
    have hcount : (t :: rest).length + 1 = rest.length + 1 + 1 := by
      simp
    rw [hstate, hcount, runShifts_drain rest _ 1]
    constructor
    · simp [List.filterMap_cons, List.filterMap_append, Song.stripHandle]
    · rfl

/-- A `play` call either appends its song to the back of the pending list
(busy branch) or leaves the pending list unchanged (start branch, whether
or not resolution succeeds). -/
theorem play_queue_cases (r : Bool) (h : Nat) (q : ServerQueue) (song : Song) :
    (play r h q song).1.queue = q.queue ++ [song] ∨
    (play r h q song).1.queue = q.queue := by
  by_cases hb : q.now_playing.isSome
  · left; simp [play, hb]
  · right
    rw [Bool.not_eq_true] at hb
    cases r <;> simp [play, play_song, hb]

/-- The end-of-track callback either shifts the pending list to its tail
(upgrade succeeded) or leaves the state unchanged (upgrade failed). -/
theorem songEndAct_queue_cases (u r : Bool) (h : Nat) (q : ServerQueue) :
    (songEndAct u r h q).1.queue = q.queue.tail ∨
    (songEndAct u r h q).1.queue = q.queue := by
  cases u with
  | false => right; rfl
  | true =>
    left
    rcases hh : q.queue.head? with _ | s
    · simp [songEndAct, ServerQueue.shift_queue, hh]
    · cases r <;> simp [songEndAct, ServerQueue.shift_queue, hh, play_song]

/-- C9: every `Song` built by `as_song` carries `handle = None`, and in
every reachable `ServerQueue` state every element of the pending list has
`handle = None` — handles are only ever attached by `play_song` to the
song being started as current, never to a pending track. -/
theorem c9_pending_no_handle :
    (∀ (v : YouTubeVideo) (author : String),
      (v.as_song author).handle = none) ∧
    (∀ q : ServerQueue, Reachable q → ∀ s ∈ q.queue, s.handle = none) := by
  constructor
  · intro v a; rfl
  · intro q hq
    induction hq with
    | init => intro s hs; simp at hs
    | playStep q song r h _hq hnone ih =>
      intro s hs
      rcases play_queue_cases r h q song with hc | hc
      · rw [hc] at hs
        rcases List.mem_append.mp hs with hs | hs
        · exact ih s hs
        · rw [List.mem_singleton.mp hs]; exact hnone
      · rw [hc] at hs
        exact ih s hs
    | songEnd q u r h _hq ih =>
      intro s hs
      rcases songEndAct_queue_cases u r h q with hc | hc
      · rw [hc] at hs
        exact ih s (List.mem_of_mem_tail hs)
      · rw [hc] at hs
        exact ih s hs

/-- C9 witness: the invariant applied to the concrete reachable state
current = A (started, handle 5), pending = [B]. -/
theorem c9_pending_no_handle_witness :
    Reachable (play true 6 (play true 5
      { now_playing := none, queue := [] } songA).1 songB).1 ∧
    songB.handle = none :=
  ⟨Reachable.playStep _ songB true 6
     (Reachable.playStep _ songA true 5 Reachable.init rfl) rfl,
   c9_pending_no_handle.2 _
     (Reachable.playStep _ songB true 6
       (Reachable.playStep _ songA true 5 Reachable.init rfl) rfl)
     songB (by decide)⟩
